import Mathlib

/-!
Shallow embedding of the LogForge logging pipeline (FelixCpp/LogForge).

The repository ships two generations of the library side by side:
the modular headers under `include/LogForge/` (class names such as
`ProductionFilter`, `MessagePrinter`, `BoxPrinter`) and the amalgamated
single header `LogForge.hpp` (namespaces `Filters::Production`,
`Printers::Messaged`, `Printers::Boxed`, ...).  Both are embedded here;
definitions follow the C++ sources line by line.  Text is modelled as
`List Char`, `std::optional` as `Option`, `std::unordered_map` as an
association list, and partial standard-library operations (such as
`std::ranges::max`, whose precondition forbids an empty range) return
`Option`, with `none` standing for the violated precondition.
-/

/-- A text line, `Line = std::wstring` in `Types.hpp`. -/
abbrev Line := List Char

/-- An ordered sequence of text lines, `Lines = std::vector<Line>`. -/
abbrev Lines := List Line

/-- Abstract model of `TimePoint = std::chrono::time_point<Clock>`: only
its identity matters to the pipeline (formatting is an oracle). -/
abbrev TimePoint := Int

/-- Helper turning a string literal into the `List Char` text model. -/
def strL (s : String) : List Char :=
  s.toList

/-- The `Severity` enumeration from `Severity.hpp`, declared in the order
Trace, Debug, Info, Warning, Error, Fatal. -/
inductive Severity
  | Trace
  | Debug
  | Info
  | Warning
  | Error
  | Fatal
  deriving DecidableEq

/-- The underlying integer value of each `Severity` enumerator (C++ gives
consecutive values starting at 0 in declaration order); `>=` on the enum
compares these values. -/
def Severity.toNat : Severity → Nat
  | .Trace => 0
  | .Debug => 1
  | .Info => 2
  | .Warning => 3
  | .Error => 4
  | .Fatal => 5

/-- `std::source_location`: file name, line, column and function name. -/
structure SourceLocation where
  fileName : Line
  lineNo : Nat
  column : Nat
  functionName : Line
  deriving DecidableEq

/-- `LogMessage = std::variant<Line, std::exception>` from `Types.hpp`:
either plain text or a captured error carried by its `what()` text. -/
inductive LogMessage
  | text (s : Line)
  | error (what : Line)
  deriving DecidableEq

/-- The modular `LogEvent` from `LogEvent.hpp`. -/
structure LogEvent where
  Severity : Severity
  Message : LogMessage
  Time : TimePoint
  SourceLocation : SourceLocation
  deriving DecidableEq

/-- The modular `OutputEvent` from `LogOutput.hpp`: rendered lines paired
with the originating event. -/
structure OutputEvent where
  Lines : Lines
  Origin : LogEvent
  deriving DecidableEq

/-- The amalgamated header's `LogEvent` (its `Message` is a plain `Line`,
not a variant). -/
structure Amalg.LogEvent where
  Severity : Severity
  Message : Line
  TimePoint : TimePoint
  SourceLocation : SourceLocation
  deriving DecidableEq

/-- `std::ranges::max` over a range of naturals.  Its precondition
requires a non-empty range; `none` models the violated precondition
(undefined behaviour in C++). -/
def rangesMax : List Nat → Option Nat
  | [] => none
  | x :: xs => some (xs.foldl max x)

/-- `std::unordered_map::find` over the association-list model of a map:
the value stored at the first matching key, if any. -/
def mapFind {α : Type} : List (Severity × α) → Severity → Option α
  | [], _ => none
  | (k, v) :: rest, s => if k = s then some v else mapFind rest s

/-- `ProductionFilter::Filter` from `Filters/ProductionFilter.hpp` (and
`ShouldLog` in the amalgamated `Filters::Production::ProductionFilter`,
which has the same body): `event.Severity >= MinSeverity`. -/
def ProductionFilter.ShouldLog (minSeverity : Severity) (event : LogEvent) : Bool :=
  minSeverity.toNat ≤ event.Severity.toNat

/-- `DevelopmentFilter::ShouldLog` from the amalgamated header
(`Filters::Development::DevelopmentFilter`), with the `NDEBUG`
preprocessor condition made an explicit boolean: under `NDEBUG` the body
is `return false;`, otherwise `return logEvent.Severity >= MinimumSeverity;`.
(The standalone `Filters/DevelopmentFilter.hpp` has the same two branches
but its release branch is missing the semicolon after `return false`, so
that header does not compile under `NDEBUG`.) -/
def DevelopmentFilter.ShouldLog (ndebug : Bool) (minSeverity : Severity) (event : LogEvent) : Bool :=
  if ndebug then false else minSeverity.toNat ≤ event.Severity.toNat

/-- The segment decomposition performed by
`message | std::ranges::views::split(sep)` on a non-empty string: a new
segment starts after every separator, so there is one segment per
separator plus a final one. -/
def splitSegs (sep : Char) : List Char → List (List Char)
  | [] => [[]]
  | c :: cs =>
    if c = sep then
      [] :: splitSegs sep cs
    else
      match splitSegs sep cs with
      | [] => [[c]]
      | seg :: rest => (c :: seg) :: rest

/-- `std::ranges::views::split(sep)` over a string, as observed on the
standard library: the empty string yields no subranges at all, a
non-empty string yields one subrange per segment. -/
def viewsSplit (sep : Char) (s : List Char) : List (List Char) :=
  match s with
  | [] => []
  | c :: cs => splitSegs sep (c :: cs)

/-- `MessagePrinter::Print` from `Printers/MessagePrinter.hpp`, as a
function of the event's message: a text message is split on `'\n'` into
one output line per subrange; a captured error becomes the single line
`"Error: " << what()`. -/
def MessagePrinter.PrintMsg (message : LogMessage) : Lines :=
  match message with
  | .text s => viewsSplit '\n' s
  | .error what => [strL "Error: " ++ what]

/-- `MessagePrinter::Print` from `Printers/MessagePrinter.hpp`. -/
def MessagePrinter.Print (event : LogEvent) : Lines :=
  MessagePrinter.PrintMsg event.Message

/-- `Printers::Messaged::MessagePrinter::Print` from the amalgamated
`LogForge.hpp`: `return { logEvent.Message };` — the message becomes one
line verbatim, with no splitting and no error form. -/
def Messaged.MessagePrinter.Print (logEvent : Amalg.LogEvent) : Lines :=
  [logEvent.Message]

/-- `PrefixPrinter::GetPrefixForSeverity` from
`Printers/PrefixPrinter.hpp`: `find` in the `Severity -> optional<Line>`
map, returning the stored optional when the key is present and `nullopt`
otherwise. -/
def PrefixPrinter.GetPrefixForSeverity (severityPrefixes : List (Severity × Option Line)) (severity : Severity) : Option Line :=
  match mapFind severityPrefixes severity with
  | some stored => stored
  | none => none

/-- `PrefixPrinter::GetLongestPrefixLength` from
`Printers/PrefixPrinter.hpp`: `std::ranges::max` over the map's values,
each transformed to its length (`nullopt` counting as 0).  The maximum
over an empty range violates the `ranges::max` precondition, modelled as
`none`; no guard in the source covers that case. -/
def PrefixPrinter.GetLongestPrefixLength (values : List (Option Line)) : Option Nat :=
  rangesMax (values.map (fun stored =>
    match stored with
    | some l => l.length
    | none => 0))

/-- A constructed modular `PrefixPrinter`: the map together with the
`LongestPrefixLength` member computed at construction. -/
structure PrefixPrinterS where
  SeverityPrefixes : List (Severity × Option Line)
  LongestPrefixLength : Nat
  deriving DecidableEq

/-- `PrefixPrinter::PrefixPrinter` from `Printers/PrefixPrinter.hpp`:
construction stores the map and `GetLongestPrefixLength` of its values;
`none` when that call's precondition is violated (empty map). -/
def PrefixPrinter.construct (severityPrefixes : List (Severity × Option Line)) : Option PrefixPrinterS :=
  match PrefixPrinter.GetLongestPrefixLength (severityPrefixes.map Prod.snd) with
  | some longest => some ⟨severityPrefixes, longest⟩
  | none => none

/-- `PrefixPrinter::Print` from `Printers/PrefixPrinter.hpp`, as a
function of the inner printer's lines: lines pass through when no prefix
is configured for the severity; otherwise each line is prepended with
the prefix right-padded with spaces to `LongestPrefixLength`. -/
def PrefixPrinterS.PrintLines (pp : PrefixPrinterS) (severity : Severity) (printedLines : Lines) : Lines :=
  match PrefixPrinter.GetPrefixForSeverity pp.SeverityPrefixes severity with
  | none => printedLines
  | some p =>
    let spacing := List.replicate (pp.LongestPrefixLength - p.length) ' '
    let leading := p ++ spacing
    printedLines.map (fun line => leading ++ line)

/-- `Printers::Prefixed::PrefixedPrinter::GetLongestPrefixLength` from
the amalgamated `LogForge.hpp`: `std::ranges::max` over the map's values
(plain `Line`s there) transformed to their lengths; `none` models the
violated precondition on an empty map. -/
def PrefixedPrinter.GetLongestPrefixLength (values : List Line) : Option Nat :=
  rangesMax (values.map List.length)

/-- `Printers::Prefixed::PrefixedPrinter::GetPrefixForSeverity` from the
amalgamated `LogForge.hpp`. -/
def PrefixedPrinter.GetPrefixForSeverity (severityPrefixes : List (Severity × Line)) (severity : Severity) : Option Line :=
  mapFind severityPrefixes severity

/-- `Printers::Prefixed::PrefixedPrinter::Print` from the amalgamated
`LogForge.hpp`, as a function of the inner printer's lines and the stored
`m_LongestPrefixLength`: note the extra separator space in
`leading = prefix.value() + padding + L' '`. -/
def PrefixedPrinter.PrintLines (severityPrefixes : List (Severity × Line)) (longestPrefixLength : Nat) (severity : Severity) (printedLines : Lines) : Lines :=
  match PrefixedPrinter.GetPrefixForSeverity severityPrefixes severity with
  | none => printedLines
  | some p =>
    let spacing := longestPrefixLength - p.length
    let padding := List.replicate spacing ' '
    let leading := p ++ padding ++ [' ']
    printedLines.map (fun line => leading ++ line)

/-- The box-assembly code shared verbatim by `BoxPrinter::Print`
(`Printers/BoxPrinter.hpp`) and the amalgamated
`Printers::Boxed::BoxedPrinter::Print`: a top border, each inner line
right-padded with spaces to the longest width and framed by vertical
border characters, then a bottom border. -/
def boxAssemble (longestLine : Nat) (printedLines : Lines) : Lines :=
  let horizontalLine := List.replicate longestLine '─'
  let upperLine := '┌' :: horizontalLine ++ ['┐']
  let lowerLine := '└' :: horizontalLine ++ ['┘']
  let boxedLines := printedLines.map (fun line =>
    let trailingSpacing := List.replicate (longestLine - line.length) ' '
    '│' :: line ++ trailingSpacing ++ ['│'])
  upperLine :: boxedLines ++ [lowerLine]

/-- `BoxPrinter::GetLongestLineLength` from `Printers/BoxPrinter.hpp`:
the body returns the plain `std::size_t` result of `std::ranges::max`,
which converts into an always-engaged `std::optional` (the inner
`Option`); the outer `none` models the `ranges::max` precondition failing
on an empty range. -/
def BoxPrinter.GetLongestLineLength (lines : Lines) : Option (Option Nat) :=
  match rangesMax (lines.map List.length) with
  | none => none
  | some n => some (some n)

/-- `BoxPrinter::Print` from `Printers/BoxPrinter.hpp`, as a function of
the inner printer's lines: the `not longestLine.has_value()` guard only
fires on a disengaged optional, which `GetLongestLineLength` never
produces; the empty-input case instead violates the `ranges::max`
precondition (outer `none`). -/
def BoxPrinter.PrintLines (printedLines : Lines) : Option Lines :=
  match BoxPrinter.GetLongestLineLength printedLines with
  | none => none
  | some none => some printedLines
  | some (some longestLine) => some (boxAssemble longestLine printedLines)

/-- `Printers::Boxed::BoxedPrinter::GetLongestLineLength` from the
amalgamated `LogForge.hpp`: a plain unguarded `std::ranges::max`; `none`
models the violated precondition on an empty range. -/
def BoxedPrinter.GetLongestLineLength (lines : Lines) : Option Nat :=
  rangesMax (lines.map List.length)

/-- `Printers::Boxed::BoxedPrinter::Print` from the amalgamated
`LogForge.hpp`, as a function of the inner printer's lines: no empty
check at all before the assembly. -/
def BoxedPrinter.PrintLines (printedLines : Lines) : Option Lines :=
  match BoxedPrinter.GetLongestLineLength printedLines with
  | none => none
  | some longestLineLength => some (boxAssemble longestLineLength printedLines)

/-- `TimestampPrinter::Print` from `Printers/TimestampPrinter.hpp`, as a
function of the inner printer's lines.  `fmtTime` is the oracle for
`FormatTime` (which returns `nullopt` when `localtime_s` fails); its
result goes through `value_or(L"<Invalid Time>")`, is prepended with the
configured prefix text and inserted ahead of all inner lines. -/
def TimestampPrinter.PrintLines (fmtTime : TimePoint → Option Line) (pfx : Line) (time : TimePoint) (printedLines : Lines) : Lines :=
  let timeline := (fmtTime time).getD (strL "<Invalid Time>")
  let prefixedTimeline := pfx ++ timeline
  prefixedTimeline :: printedLines

/-- `LocationPrinter::FormatLocation` from
`Printers/LocationPrinter.hpp`: `nullopt` when the stored
`std::function` is null, otherwise the formatter's result. -/
def LocationPrinter.FormatLocation (formatter : Option (SourceLocation → Line)) (location : SourceLocation) : Option Line :=
  match formatter with
  | none => none
  | some f => some (f location)

/-- `LocationPrinter::Print` from `Printers/LocationPrinter.hpp`, as a
function of the inner printer's lines: `FormatLocation` through
`value_or(L"<Invalid Location>")`, prepended with the configured prefix
text and inserted ahead of all inner lines. -/
def LocationPrinter.PrintLines (formatter : Option (SourceLocation → Line)) (pfx : Line) (location : SourceLocation) (printedLines : Lines) : Lines :=
  let locationLine := (LocationPrinter.FormatLocation formatter location).getD (strL "<Invalid Location>")
  let prefixedLocationLine := pfx ++ locationLine
  prefixedLocationLine :: printedLines

/-- `Printers::Timestamped::TimestampPrinter::Print` from the amalgamated
`LogForge.hpp`: like the modular one but the prefix and the (fallback)
timestamp are joined by `L' '`. -/
def Timestamped.TimestampPrinter.PrintLines (fmtTime : TimePoint → Option Line) (pfx : Line) (time : TimePoint) (printedLines : Lines) : Lines :=
  let timestamp := (fmtTime time).getD (strL "<Invalid Time>")
  let timeline := pfx ++ ' ' :: timestamp
  timeline :: printedLines

/-- `Printers::Located::LocationPrinter::Print` from the amalgamated
`LogForge.hpp`: `if (m_Formatter == nullptr) return printedLines;` — a
null formatter passes the inner lines through with no synthesized line
and no fallback; otherwise one `m_Prefix + L' ' + location` line is
prepended. -/
def Located.LocationPrinter.PrintLines (formatter : Option (SourceLocation → Line)) (pfx : Line) (location : SourceLocation) (printedLines : Lines) : Lines :=
  match formatter with
  | none => printedLines
  | some f =>
    let timeline := pfx ++ ' ' :: f location
    timeline :: printedLines

/-- `LogFmtPrinter::GenerateLevel` from `Printers/LogFmtPrinter.hpp`:
`"level=" + prefix` when the severity is mapped to an engaged prefix,
`nullopt` otherwise. -/
def LogFmtPrinter.GenerateLevel (severityPrefixes : List (Severity × Option Line)) (severity : Severity) : Option Line :=
  match mapFind severityPrefixes severity with
  | some (some p) => some (strL "level=" ++ p)
  | _ => none

/-- `LogFmtPrinter::GenerateMessage` from `Printers/LogFmtPrinter.hpp`:
`"message=" + text` for a text message, `"error=" << what()` for a
captured error. -/
def LogFmtPrinter.GenerateMessage (message : LogMessage) : Option Line :=
  match message with
  | .text s => some (strL "message=" ++ s)
  | .error what => some (strL "error=" ++ what)

/-- `LogFmtPrinter::GenerateTime` from `Printers/LogFmtPrinter.hpp`:
`nullopt` when `localtime_s` fails, otherwise `"time=" << put_time(...)`;
`fmtTime` is the oracle for the formatted text. -/
def LogFmtPrinter.GenerateTime (fmtTime : TimePoint → Option Line) (time : TimePoint) : Option Line :=
  match fmtTime time with
  | none => none
  | some t => some (strL "time=" ++ t)

/-- The field-joining loop at the end of `LogFmtPrinter::Print`:
`if (i > 0) line += L' '; line += lines[i];`. -/
def joinFields : List Line → Line
  | [] => []
  | x :: xs => xs.foldl (fun acc l => acc ++ ' ' :: l) x

/-- `LogFmtPrinter::Print` from `Printers/LogFmtPrinter.hpp`: the three
generators are appended in the order level, message, time, each only when
engaged, and the space-joined result is returned as a single line. -/
def LogFmtPrinter.Print (severityPrefixes : List (Severity × Option Line)) (fmtTime : TimePoint → Option Line) (event : LogEvent) : Lines :=
  let fields :=
    (LogFmtPrinter.GenerateLevel severityPrefixes event.Severity).toList ++
    (LogFmtPrinter.GenerateMessage event.Message).toList ++
    (LogFmtPrinter.GenerateTime fmtTime event.Time).toList
  [joinFields fields]

/-- `MultiOutput::NormalizeOutputs` from `Outputs/MultiOutput.hpp`: the
loop keeps exactly the non-null sub-outputs, in their original order
(`null` modelled as `none`). -/
def MultiOutput.NormalizeOutputs {α : Type} : List (Option α) → List α
  | [] => []
  | some o :: rest => o :: MultiOutput.NormalizeOutputs rest
  | none :: rest => MultiOutput.NormalizeOutputs rest

/-- `MultiOutput::Output` from `Outputs/MultiOutput.hpp`, observed as its
delivery trace: the loop hands the same `OutputEvent` to every stored
sub-output, in storage order. -/
def MultiOutput.OutputTrace {α : Type} (outputs : List α) (event : OutputEvent) : List (α × OutputEvent) :=
  outputs.map (fun o => (o, event))

/-- The observable behaviour of one `DefaultLogger::Log` call: which
events the printer was asked to render and which output events `Write`
received. -/
structure LogTrace where
  printCalls : List LogEvent
  writeCalls : List OutputEvent
  deriving DecidableEq

/-- `DefaultLogger::Log` from `Loggers/DefaultLogger.hpp` (the
amalgamated `DefaultLogger::Log` has the same structure): when the filter
accepts, the printer renders the event, the lines are paired with the
unmodified event into an `OutputEvent` and written once; otherwise
nothing happens. -/
def DefaultLogger.Log (filter : LogEvent → Bool) (print : LogEvent → Lines) (event : LogEvent) : LogTrace :=
  if filter event then
    let lines := print event
    let outputEvent : OutputEvent := ⟨lines, event⟩
    ⟨[event], [outputEvent]⟩
  else
    ⟨[], []⟩

/-- Number of occurrences of a separator character in a string (the
claim's count of embedded line breaks). -/
def countChar (sep : Char) : List Char → Nat
  | [] => 0
  | c :: cs => (if c = sep then 1 else 0) + countChar sep cs

/-- Joining segments back with the separator (used to state that a split
preserves the segments in their original order). -/
def joinWith (sep : Char) : List (List Char) → List Char
  | [] => []
  | [x] => x
  | x :: y :: ys => x ++ sep :: joinWith sep (y :: ys)

/-- A fixed sample source location for concrete witnesses. -/
def sampleLocation : SourceLocation :=
  ⟨[], 0, 0, []⟩

/-- A sample accepted event (severity Info, text message). -/
def sampleEventInfo : LogEvent :=
  ⟨Severity.Info, LogMessage.text (strL "Hello"), 0, sampleLocation⟩

/-- A sample rejected event (severity Trace, text message). -/
def sampleEventTrace : LogEvent :=
  ⟨Severity.Trace, LogMessage.text (strL "ignored"), 0, sampleLocation⟩

theorem foldl_max_le_init (xs : List Nat) (x : Nat) : x ≤ xs.foldl max x := by
  induction xs generalizing x with
  | nil => simp
  | cons a l ih =>
    simp only [List.foldl_cons]
    exact le_trans (le_max_left x a) (ih (max x a))

theorem foldl_max_le_mem (xs : List Nat) (x y : Nat) (hy : y ∈ xs) : y ≤ xs.foldl max x := by
  induction xs generalizing x with
  | nil => cases hy
  | cons a l ih =>
    simp only [List.foldl_cons]
    rcases List.mem_cons.mp hy with rfl | h
    · exact le_trans (le_max_right x y) (foldl_max_le_init l (max x y))
    · exact ih (max x a) h

theorem rangesMax_le {l : List Nat} {m : Nat} (h : rangesMax l = some m) :
    ∀ y ∈ l, y ≤ m := by
  cases l with
  | nil => simp [rangesMax] at h
  | cons x xs =>
    simp only [rangesMax, Option.some.injEq] at h
    intro y hy
    rcases List.mem_cons.mp hy with rfl | hmem
    · exact h ▸ foldl_max_le_init xs y
    · exact h ▸ foldl_max_le_mem xs x y hmem

theorem rangesMax_isSome {l : List Nat} (h : l ≠ []) : (rangesMax l).isSome = true := by
  cases l with
  | nil => exact absurd rfl h
  | cons x xs => simp [rangesMax]

theorem mapFind_mem_values {α : Type} {l : List (Severity × α)} {k : Severity} {v : α}
    (h : mapFind l k = some v) : v ∈ l.map Prod.snd := by
  induction l with
  | nil => simp [mapFind] at h
  | cons p rest ih =>
    simp only [mapFind] at h
    by_cases hk : p.1 = k
    · simp [hk] at h
      simp [← h]
    · simp [hk] at h
      simp [ih h]

theorem splitSegs_ne_nil (sep : Char) (s : List Char) : splitSegs sep s ≠ [] := by
  cases s with
  | nil => simp [splitSegs]
  | cons c cs =>
    simp only [splitSegs]
    split
    · simp
    · split <;> simp

theorem length_splitSegs (sep : Char) (s : List Char) :
    (splitSegs sep s).length = countChar sep s + 1 := by
  induction s with
  | nil => simp [splitSegs, countChar]
  | cons c cs ih =>
    simp only [splitSegs, countChar]
    by_cases h : c = sep
    · simp [h, ih]
      omega
    · simp only [h, if_false]
      cases hs : splitSegs sep cs with
      | nil => exact absurd hs (splitSegs_ne_nil sep cs)
      | cons seg rest =>
        rw [hs] at ih
        simp at ih
        simp [ih]

theorem splitSegs_no_sep (sep : Char) (s : List Char) :
    ∀ seg ∈ splitSegs sep s, sep ∉ seg := by
  induction s with
  | nil =>
    intro seg hseg
    simp [splitSegs] at hseg
    simp [hseg]
  | cons c cs ih =>
    intro seg hseg
    simp only [splitSegs] at hseg
    by_cases h : c = sep
    · simp [h] at hseg
      rcases hseg with rfl | hmem
      · simp
      · exact ih seg hmem
    · simp only [h, if_false] at hseg
      cases hs : splitSegs sep cs with
      | nil => exact absurd hs (splitSegs_ne_nil sep cs)
      | cons seg0 rest =>
        rw [hs] at hseg
        rcases List.mem_cons.mp hseg with rfl | hmem
        · intro hmem2
          rcases List.mem_cons.mp hmem2 with h2 | h2
          · exact h h2.symm
          · exact ih seg0 (hs ▸ List.mem_cons_self seg0 rest) h2
        · exact ih seg (hs ▸ List.mem_cons_of_mem seg0 hmem)

theorem joinWith_splitSegs (sep : Char) (s : List Char) :
    joinWith sep (splitSegs sep s) = s := by
  induction s with
  | nil => simp [splitSegs, joinWith]
  | cons c cs ih =>
    simp only [splitSegs]
    by_cases h : c = sep
    · simp only [h, if_true]
      cases hs : splitSegs sep cs with
      | nil => exact absurd hs (splitSegs_ne_nil sep cs)
      | cons seg rest =>
        rw [hs] at ih
        simp [joinWith, ← ih, h]
    · simp only [h, if_false]
      cases hs : splitSegs sep cs with
      | nil => exact absurd hs (splitSegs_ne_nil sep cs)
      | cons seg rest =>
        rw [hs] at ih
        cases rest with
        | nil => simp [joinWith] at ih ⊢; simp [ih]
        | cons r rs => simp [joinWith] at ih ⊢; simp [ih]

/-- C1: `DefaultLogger::Log` has exactly two outcomes.  A rejected event
causes no printer call and no write (dropped); an accepted event is
rendered once and `Write` is called exactly once with the `OutputEvent`
pairing the rendered lines with the unmodified original event
(emitted). -/
theorem C1_logger_dispatch (filter : LogEvent → Bool) (print : LogEvent → Lines)
    (event : LogEvent) :
    (filter event = false →
      DefaultLogger.Log filter print event = ⟨[], []⟩) ∧
    (filter event = true →
      DefaultLogger.Log filter print event = ⟨[event], [⟨print event, event⟩]⟩) := by
  constructor <;> intro h <;> simp [DefaultLogger.Log, h]

/-- Witness for C1 at a threshold filter with minimum Info and the
message printer: a Trace event is dropped with no print and no write; an
Info event is printed once and written exactly once. -/
theorem C1_logger_dispatch_witness :
    DefaultLogger.Log (ProductionFilter.ShouldLog Severity.Info) MessagePrinter.Print
        sampleEventTrace = ⟨[], []⟩ ∧
    DefaultLogger.Log (ProductionFilter.ShouldLog Severity.Info) MessagePrinter.Print
        sampleEventInfo = ⟨[sampleEventInfo], [⟨[strL "Hello"], sampleEventInfo⟩]⟩ := by
  constructor
  · exact (C1_logger_dispatch (ProductionFilter.ShouldLog Severity.Info)
      MessagePrinter.Print sampleEventTrace).1 (by decide)
  · have h := (C1_logger_dispatch (ProductionFilter.ShouldLog Severity.Info)
      MessagePrinter.Print sampleEventInfo).2 (by decide)
    rw [h]
    decide

/-- C2: the threshold filter accepts exactly when the event's severity is
at least the configured threshold in the enumeration order
Trace < Debug < Info < Warning < Error < Fatal, and its decision depends
only on the event's severity (never on message, timestamp or source
origin). -/
theorem C2_threshold_filter (t : Severity) (e : LogEvent) :
    (ProductionFilter.ShouldLog t e = true ↔ t.toNat ≤ e.Severity.toNat) ∧
    (∀ e2 : LogEvent, e.Severity = e2.Severity →
      ProductionFilter.ShouldLog t e = ProductionFilter.ShouldLog t e2) ∧
    (Severity.Trace.toNat < Severity.Debug.toNat ∧
     Severity.Debug.toNat < Severity.Info.toNat ∧
     Severity.Info.toNat < Severity.Warning.toNat ∧
     Severity.Warning.toNat < Severity.Error.toNat ∧
     Severity.Error.toNat < Severity.Fatal.toNat) := by
  refine ⟨?_, ?_, by decide⟩
  · simp [ProductionFilter.ShouldLog]
  · intro e2 h
    simp [ProductionFilter.ShouldLog, h]

/-- Witness for C2: two Trace events differing in message, timestamp and
source origin get the same decision from the Info-threshold filter. -/
theorem C2_threshold_filter_witness :
    ProductionFilter.ShouldLog Severity.Info sampleEventTrace =
      ProductionFilter.ShouldLog Severity.Info
        ⟨Severity.Trace, LogMessage.error (strL "boom"), 42, ⟨strL "f.cpp", 1, 2, strL "g"⟩⟩ :=
  (C2_threshold_filter Severity.Info sampleEventTrace).2.1 _ (by decide)

/-- C7: the mode-gated (development) filter rejects every event when the
release flag (`NDEBUG`) is set, regardless of severity and threshold, and
with the flag clear its decision coincides with the threshold filter at
the same threshold. -/
theorem C7_development_filter (t : Severity) (e : LogEvent) :
    DevelopmentFilter.ShouldLog true t e = false ∧
    DevelopmentFilter.ShouldLog false t e = ProductionFilter.ShouldLog t e := by
  constructor <;> simp [DevelopmentFilter.ShouldLog, ProductionFilter.ShouldLog]

/-- C3: both box printers send an empty inner result into the unguarded
`std::ranges::max` (the embedding's error branch) instead of passing it
through — the disengaged-optional guard in the modular source is dead
code; for a non-empty inner result the output is exactly N+2 lines, each
of width `longest + 2`. -/
theorem C3_box_printer :
    BoxPrinter.PrintLines [] = none ∧
    BoxedPrinter.PrintLines [] = none ∧
    (∀ (ls : Lines) (longestLine : Nat),
      rangesMax (ls.map List.length) = some longestLine →
      BoxPrinter.PrintLines ls = some (boxAssemble longestLine ls) ∧
      BoxedPrinter.PrintLines ls = some (boxAssemble longestLine ls) ∧
      (boxAssemble longestLine ls).length = ls.length + 2 ∧
      ∀ l ∈ boxAssemble longestLine ls, l.length = longestLine + 2) := by
  refine ⟨rfl, rfl, ?_⟩
  intro ls longestLine h
  refine ⟨?_, ?_, ?_, ?_⟩
  · simp [BoxPrinter.PrintLines, BoxPrinter.GetLongestLineLength, h]
  · simp [BoxedPrinter.PrintLines, BoxedPrinter.GetLongestLineLength, h]
  · simp [boxAssemble]
  · intro l hl
    simp only [boxAssemble, List.mem_cons, List.mem_append, List.mem_map,
      List.mem_singleton] at hl
    rcases hl with (rfl | ⟨line, hline, rfl⟩) | rfl | h0
    · simp
    · have hle : line.length ≤ longestLine :=
        rangesMax_le h line.length (List.mem_map_of_mem List.length hline)
      simp only [List.length_cons, List.length_append, List.length_replicate,
        List.length_singleton, List.length_nil]
      omega
    · simp
    · simp at h0

/-- Witness for C3's non-empty branch at the two inner lines
`["ab", "c"]` (longest width 2): the modular box printer produces the
assembled four-line box. -/
theorem C3_box_printer_witness :
    BoxPrinter.PrintLines [strL "ab", strL "c"] =
      some (boxAssemble 2 [strL "ab", strL "c"]) :=
  (C3_box_printer.2.2 [strL "ab", strL "c"] 2 (by decide)).1

/-- C4 counterexample: the empty text message has 0 embedded line breaks,
so the claim predicts exactly 1 output line, but the modular message
printer produces 0 lines (`views::split` of an empty string yields no
subranges). -/
theorem C4_message_printer_cex :
    (MessagePrinter.PrintMsg (LogMessage.text [])).length ≠ countChar '\n' [] + 1 := by
  decide

/-- C4 amended: the modular message printer turns a NON-EMPTY text
message with k embedded line breaks into exactly k+1 break-free lines
whose concatenation (with the breaks restored) is the original message;
the empty text message yields no lines; a captured error yields the
single line "Error: " followed by the error text.  The amalgamated
message printer instead returns the message verbatim as one line. -/
theorem C4_message_printer_amended :
    (∀ s : Line, s ≠ [] →
      (MessagePrinter.PrintMsg (LogMessage.text s)).length = countChar '\n' s + 1 ∧
      (∀ seg ∈ MessagePrinter.PrintMsg (LogMessage.text s), '\n' ∉ seg) ∧
      joinWith '\n' (MessagePrinter.PrintMsg (LogMessage.text s)) = s) ∧
    MessagePrinter.PrintMsg (LogMessage.text []) = [] ∧
    (∀ what : Line, MessagePrinter.PrintMsg (LogMessage.error what) = [strL "Error: " ++ what]) ∧
    (∀ e : Amalg.LogEvent, Messaged.MessagePrinter.Print e = [e.Message]) := by
  refine ⟨?_, rfl, fun _ => rfl, fun _ => rfl⟩
  intro s hs
  cases s with
  | nil => exact absurd rfl hs
  | cons c cs =>
    refine ⟨?_, ?_, ?_⟩
    · simpa [MessagePrinter.PrintMsg, viewsSplit] using length_splitSegs '\n' (c :: cs)
    · simpa [MessagePrinter.PrintMsg, viewsSplit] using splitSegs_no_sep '\n' (c :: cs)
    · simpa [MessagePrinter.PrintMsg, viewsSplit] using joinWith_splitSegs '\n' (c :: cs)

/-- Witness for C4's amended split clause at the message `"a\nb"`
(one break, hence two lines). -/
theorem C4_message_printer_amended_witness :
    (MessagePrinter.PrintMsg (LogMessage.text (strL "a\nb"))).length =
      countChar '\n' (strL "a\nb") + 1 :=
  (C4_message_printer_amended.1 (strL "a\nb") (by decide)).1

/-- C5 counterexample: the amalgamated prefixed printer configured with
the single prefix "[INFO]" (longest length 6, as computed at
construction) prepends "[INFO] " — 7 characters, not 6 — because its
`leading` appends an extra separator space after the padding. -/
theorem C5_prefix_printer_cex :
    PrefixedPrinter.GetLongestPrefixLength [strL "[INFO]"] = some 6 ∧
    PrefixedPrinter.PrintLines [(Severity.Info, strL "[INFO]")] 6 Severity.Info [strL "x"] =
      [strL "[INFO] x"] ∧
    (strL "[INFO] x").length ≠ 6 + (strL "x").length := by
  refine ⟨by decide, by decide, by decide⟩

/-- C5 amended: in a constructed modular prefix printer, a severity with
a configured prefix gets every line prepended with text of length exactly
`LongestPrefixLength` (the longest configured prefix), and an
unconfigured severity passes through; the amalgamated prefixed printer
behaves the same except its prepended text has length
`longest + 1` (prefix, padding, then a separator space). -/
theorem C5_prefix_printer_amended :
    (∀ (prefixes : List (Severity × Option Line)) (pp : PrefixPrinterS),
      PrefixPrinter.construct prefixes = some pp →
      ∀ (sev : Severity) (inner : Lines),
        (PrefixPrinter.GetPrefixForSeverity pp.SeverityPrefixes sev = none →
          pp.PrintLines sev inner = inner) ∧
        (∀ p : Line, PrefixPrinter.GetPrefixForSeverity pp.SeverityPrefixes sev = some p →
          pp.PrintLines sev inner =
            inner.map (fun line =>
              (p ++ List.replicate (pp.LongestPrefixLength - p.length) ' ') ++ line) ∧
          (p ++ List.replicate (pp.LongestPrefixLength - p.length) ' ').length =
            pp.LongestPrefixLength)) ∧
    (∀ (prefixes : List (Severity × Line)) (longest : Nat),
      PrefixedPrinter.GetLongestPrefixLength (prefixes.map Prod.snd) = some longest →
      ∀ (sev : Severity) (inner : Lines),
        (PrefixedPrinter.GetPrefixForSeverity prefixes sev = none →
          PrefixedPrinter.PrintLines prefixes longest sev inner = inner) ∧
        (∀ p : Line, PrefixedPrinter.GetPrefixForSeverity prefixes sev = some p →
          PrefixedPrinter.PrintLines prefixes longest sev inner =
            inner.map (fun line =>
              (p ++ List.replicate (longest - p.length) ' ' ++ [' ']) ++ line) ∧
          (p ++ List.replicate (longest - p.length) ' ' ++ [' ']).length = longest + 1)) := by
  constructor
  · intro prefixes pp hpp sev inner
    have hcon : PrefixPrinter.GetLongestPrefixLength (pp.SeverityPrefixes.map Prod.snd) =
        some pp.LongestPrefixLength := by
      unfold PrefixPrinter.construct at hpp
      cases h : PrefixPrinter.GetLongestPrefixLength (List.map Prod.snd prefixes) with
      | none => rw [h] at hpp; cases hpp
      | some longest =>
        rw [h] at hpp
        cases hpp
        simpa using h
    constructor
    · intro hn
      simp [PrefixPrinterS.PrintLines, hn]
    · intro p hp
      have hfind : mapFind pp.SeverityPrefixes sev = some (some p) := by
        unfold PrefixPrinter.GetPrefixForSeverity at hp
        cases hf : mapFind pp.SeverityPrefixes sev with
        | none => rw [hf] at hp; cases hp
        | some stored =>
          rw [hf] at hp
          simp at hp
          rw [hp]
      have hmem : some p ∈ pp.SeverityPrefixes.map Prod.snd := mapFind_mem_values hfind
      have hlen : p.length ∈ (pp.SeverityPrefixes.map Prod.snd).map
          (fun stored => match stored with | some l => l.length | none => 0) :=
        List.mem_map_of_mem _ hmem
      unfold PrefixPrinter.GetLongestPrefixLength at hcon
      have hple : p.length ≤ pp.LongestPrefixLength := rangesMax_le hcon p.length hlen
      constructor
      · simp [PrefixPrinterS.PrintLines, hp]
      · simp only [List.length_append, List.length_replicate]
        omega
  · intro prefixes longest hlon sev inner
    constructor
    · intro hn
      simp [PrefixedPrinter.PrintLines, hn]
    · intro p hp
      have hmem : p ∈ prefixes.map Prod.snd :=
        mapFind_mem_values (l := prefixes) (k := sev) hp
      have hlenmem : p.length ∈ (prefixes.map Prod.snd).map List.length :=
        List.mem_map_of_mem List.length hmem
      unfold PrefixedPrinter.GetLongestPrefixLength at hlon
      have hple : p.length ≤ longest := rangesMax_le hlon p.length hlenmem
      constructor
      · simp [PrefixedPrinter.PrintLines, hp]
      · simp only [List.length_append, List.length_replicate, List.length_singleton]
        omega

/-- Witness for C5's amended modular clause: with prefixes "[INFO]: "
(length 8) and "[ERROR]: " (length 9) the constructed longest length is
9, and the text prepended for Info has length exactly 9. -/
theorem C5_prefix_printer_amended_witness :
    (strL "[INFO]: " ++
      List.replicate ((9 : Nat) - (strL "[INFO]: ").length) ' ').length = 9 :=
  ((C5_prefix_printer_amended.1
      [(Severity.Info, some (strL "[INFO]: ")), (Severity.Error, some (strL "[ERROR]: "))]
      ⟨[(Severity.Info, some (strL "[INFO]: ")), (Severity.Error, some (strL "[ERROR]: "))], 9⟩
      (by decide) Severity.Info [strL "x"]).2 (strL "[INFO]: ") (by decide)).2

/-- C6 counterexample: the amalgamated location printer with a null
formatter returns the inner lines unchanged — no line is synthesized and
the "<Invalid Location>" fallback never appears, contradicting the
claim's "exactly one new line ... never drops the inner lines, fallback
substituted on failure". -/
theorem C6_location_printer_cex :
    Located.LocationPrinter.PrintLines none (strL "Location:") sampleLocation [strL "x"] =
      [strL "x"] ∧
    (Located.LocationPrinter.PrintLines none (strL "Location:") sampleLocation
      [strL "x"]).length ≠ 1 + 1 := by
  refine ⟨rfl, by decide⟩

/-- C6 amended: the modular timestamp and location printers always
prepend exactly one synthesized line (prefix text plus formatted value),
substituting "<Invalid Time>" / "<Invalid Location>" for the value when
formatting fails and leaving the inner lines intact; the amalgamated
timestamp printer does the same (with a space joining prefix and value);
the amalgamated location printer, however, prepends its one line only
when its formatter is non-null and otherwise returns the inner lines
unchanged with no synthesized line at all. -/
theorem C6_timestamp_location_amended :
    (∀ (fmtTime : TimePoint → Option Line) (pfx : Line) (t : TimePoint) (inner : Lines),
      TimestampPrinter.PrintLines fmtTime pfx t inner =
        (pfx ++ (fmtTime t).getD (strL "<Invalid Time>")) :: inner ∧
      (fmtTime t = none →
        TimestampPrinter.PrintLines fmtTime pfx t inner =
          (pfx ++ strL "<Invalid Time>") :: inner)) ∧
    (∀ (formatter : Option (SourceLocation → Line)) (pfx : Line) (loc : SourceLocation)
        (inner : Lines),
      LocationPrinter.PrintLines formatter pfx loc inner =
        (pfx ++ (LocationPrinter.FormatLocation formatter loc).getD
          (strL "<Invalid Location>")) :: inner ∧
      (formatter = none →
        LocationPrinter.PrintLines formatter pfx loc inner =
          (pfx ++ strL "<Invalid Location>") :: inner)) ∧
    (∀ (fmtTime : TimePoint → Option Line) (pfx : Line) (t : TimePoint) (inner : Lines),
      Timestamped.TimestampPrinter.PrintLines fmtTime pfx t inner =
        (pfx ++ ' ' :: (fmtTime t).getD (strL "<Invalid Time>")) :: inner) ∧
    (∀ (f : SourceLocation → Line) (pfx : Line) (loc : SourceLocation) (inner : Lines),
      Located.LocationPrinter.PrintLines (some f) pfx loc inner =
        (pfx ++ ' ' :: f loc) :: inner) ∧
    (∀ (pfx : Line) (loc : SourceLocation) (inner : Lines),
      Located.LocationPrinter.PrintLines none pfx loc inner = inner) := by
  refine ⟨?_, ?_, fun _ _ _ _ => rfl, fun _ _ _ _ => rfl, fun _ _ _ => rfl⟩
  · intro fmtTime pfx t inner
    refine ⟨rfl, ?_⟩
    intro h
    simp [TimestampPrinter.PrintLines, h]
  · intro formatter pfx loc inner
    refine ⟨rfl, ?_⟩
    intro h
    simp [LocationPrinter.PrintLines, LocationPrinter.FormatLocation, h]

/-- Witness for C6's failure-fallback clause: a time formatter that
always fails makes the modular timestamp printer prepend exactly the
prefixed "<Invalid Time>" line ahead of the untouched inner line. -/
theorem C6_timestamp_location_amended_witness :
    TimestampPrinter.PrintLines (fun _ => none) (strL "Time: ") 0 [strL "x"] =
      (strL "Time: " ++ strL "<Invalid Time>") :: [strL "x"] :=
  (C6_timestamp_location_amended.1 (fun _ => none) (strL "Time: ") 0 [strL "x"]).2 rfl

/-- C8: the logfmt printer always produces exactly one line, the
space-join of the engaged fields in the fixed order level, message, time;
when all three render the line is literally
`level-field ' ' message-field ' ' time-field`, and a field that cannot
be rendered (unmapped severity, failed time conversion) disappears from
the join entirely rather than leaving an empty placeholder. -/
theorem C8_logfmt_printer (severityPrefixes : List (Severity × Option Line))
    (fmtTime : TimePoint → Option Line) (e : LogEvent) :
    (LogFmtPrinter.Print severityPrefixes fmtTime e).length = 1 ∧
    LogFmtPrinter.Print severityPrefixes fmtTime e =
      [joinFields ((LogFmtPrinter.GenerateLevel severityPrefixes e.Severity).toList ++
        (LogFmtPrinter.GenerateMessage e.Message).toList ++
        (LogFmtPrinter.GenerateTime fmtTime e.Time).toList)] ∧
    (∀ lvl msg tim : Line,
      LogFmtPrinter.GenerateLevel severityPrefixes e.Severity = some lvl →
      LogFmtPrinter.GenerateMessage e.Message = some msg →
      LogFmtPrinter.GenerateTime fmtTime e.Time = some tim →
      LogFmtPrinter.Print severityPrefixes fmtTime e = [lvl ++ ' ' :: msg ++ ' ' :: tim]) ∧
    (LogFmtPrinter.GenerateLevel severityPrefixes e.Severity = none →
      LogFmtPrinter.Print severityPrefixes fmtTime e =
        [joinFields ((LogFmtPrinter.GenerateMessage e.Message).toList ++
          (LogFmtPrinter.GenerateTime fmtTime e.Time).toList)]) ∧
    (LogFmtPrinter.GenerateTime fmtTime e.Time = none →
      LogFmtPrinter.Print severityPrefixes fmtTime e =
        [joinFields ((LogFmtPrinter.GenerateLevel severityPrefixes e.Severity).toList ++
          (LogFmtPrinter.GenerateMessage e.Message).toList)]) := by
  refine ⟨rfl, rfl, ?_, ?_, ?_⟩
  · intro lvl msg tim h1 h2 h3
    simp [LogFmtPrinter.Print, h1, h2, h3, joinFields, List.append_assoc]
  · intro h
    simp [LogFmtPrinter.Print, h]
  · intro h
    simp [LogFmtPrinter.Print, h]

/-- Witness for C8's omission clause: with an empty prefix mapping the
severity field cannot be rendered and the one output line is the join of
just the message and time fields. -/
theorem C8_logfmt_printer_witness :
    LogFmtPrinter.Print [] (fun _ => some (strL "T")) sampleEventInfo =
      [joinFields ((LogFmtPrinter.GenerateMessage sampleEventInfo.Message).toList ++
        (LogFmtPrinter.GenerateTime (fun _ => some (strL "T"))
          sampleEventInfo.Time).toList)] :=
  (C8_logfmt_printer [] (fun _ => some (strL "T")) sampleEventInfo).2.2.2.1 rfl

/-- C9: the fan-out output drops null sub-outputs at construction —
normalizing a list with a null inserted anywhere equals normalizing the
list without it — and one `Write` delivers the identical `OutputEvent` to
every remaining sub-output in registration order; in particular
`[A, null, B]` behaves exactly as `[A, B]`. -/
theorem C9_multi_output {α : Type} :
    (∀ (xs ys : List (Option α)),
      MultiOutput.NormalizeOutputs (xs ++ none :: ys) =
        MultiOutput.NormalizeOutputs (xs ++ ys)) ∧
    (∀ (A B : α) (e : OutputEvent),
      MultiOutput.NormalizeOutputs [some A, none, some B] = [A, B] ∧
      MultiOutput.NormalizeOutputs [some A, none, some B] =
        MultiOutput.NormalizeOutputs [some A, some B] ∧
      MultiOutput.OutputTrace (MultiOutput.NormalizeOutputs [some A, none, some B]) e =
        [(A, e), (B, e)]) := by
  constructor
  · intro xs ys
    induction xs with
    | nil => rfl
    | cons a xs ih =>
      cases a with
      | none => simpa [MultiOutput.NormalizeOutputs] using ih
      | some o => simp [MultiOutput.NormalizeOutputs, ih]
  · intro A B e
    exact ⟨rfl, rfl, rfl⟩

/-- C10: constructing a prefix printer takes an unguarded maximum over
the mapping's values, so construction is well-defined for every non-empty
mapping and hits the empty-range error branch (the violated
`ranges::max` precondition) for the empty mapping, in both the modular
and the amalgamated implementation. -/
theorem C10_prefix_construction :
    (∀ values : List (Option Line), values ≠ [] →
      (PrefixPrinter.GetLongestPrefixLength values).isSome = true) ∧
    PrefixPrinter.GetLongestPrefixLength [] = none ∧
    (∀ values : List Line, values ≠ [] →
      (PrefixedPrinter.GetLongestPrefixLength values).isSome = true) ∧
    PrefixedPrinter.GetLongestPrefixLength [] = none ∧
    (∀ prefixes : List (Severity × Option Line), prefixes ≠ [] →
      (PrefixPrinter.construct prefixes).isSome = true) ∧
    PrefixPrinter.construct [] = none := by
  refine ⟨?_, rfl, ?_, rfl, ?_, rfl⟩
  · intro values hv
    cases values with
    | nil => exact absurd rfl hv
    | cons v rest => simp [PrefixPrinter.GetLongestPrefixLength, rangesMax]
  · intro values hv
    cases values with
    | nil => exact absurd rfl hv
    | cons v rest => simp [PrefixedPrinter.GetLongestPrefixLength, rangesMax]
  · intro prefixes hp
    cases prefixes with
    | nil => exact absurd rfl hp
    | cons q rest =>
      simp [PrefixPrinter.construct, PrefixPrinter.GetLongestPrefixLength, rangesMax]

/-- Witness for C10 at a one-entry mapping: the longest-length
computation and the construction both succeed. -/
theorem C10_prefix_construction_witness :
    (PrefixPrinter.GetLongestPrefixLength [some (strL "A")]).isSome = true ∧
    (PrefixPrinter.construct [(Severity.Info, some (strL "A"))]).isSome = true :=
  ⟨C10_prefix_construction.1 [some (strL "A")] (by decide),
   C10_prefix_construction.2.2.2.2.1 [(Severity.Info, some (strL "A"))] (by decide)⟩
